import Mathlib

/-!
Shallow embedding of the International Development Projects Dashboard.

The embedding covers the client-side data pipeline of the map component
(`src/components/MapboxMap.tsx`, given here as `src/unnamed/part_002`):
the per-country aggregation `processProjectData`, the click/hover event
handlers, the popup statistics `calculateProjectStats`, the numeric
formatting used by the popup renderers, the `focusOnCountry` /
`resetView` view operations, and `validateEnvironment` from
`src/src/lib/config.ts`.

Modelling conventions:
* JavaScript `number` is modelled as `ℚ` (exact arithmetic; binary
  floating-point rounding is out of scope of the formatting claims).
* JavaScript strings are modelled as `String`; `toLowerCase`,
  `startsWith` and `includes` are modelled by executable character-list
  functions below, accurate on ASCII data.
* The `Record<string, ...>` object built by `processProjectData` is
  modelled as an insertion-ordered association list with unique keys,
  which matches property creation/update semantics of a plain JS object
  with string keys.
* React `useState` setter calls are modelled as state updates. A
  `useState` value read inside the once-registered map event listeners
  is modelled as the value captured when the listener was registered
  (the first render's value, see `capturedHoveredStateId`): the
  listener closures are created once inside the mount effect and never
  re-created, so they never observe later state (a stale closure).
  The DOM popup collection is modelled as the `popups` list.
-/

namespace Dashboard

/-! ### Models of JavaScript string and collection primitives -/

/-- Model of the JavaScript fallback `v || dflt` on an optional string
property: both `undefined` and the empty string are falsy. -/
def jsOrString (v : Option String) (dflt : String) : String :=
  match v with
  | none => dflt
  | some s => if s = "" then dflt else s

/-- Model of `String.prototype.toLowerCase` (per-character lowering,
accurate on the ASCII country names used by the dashboard). -/
def jsToLower (s : String) : String := String.mk (s.data.map Char.toLower)

/-- Auxiliary: `startsWithList pat l` is true when the character list `l`
starts with `pat`. -/
def startsWithList : List Char → List Char → Bool
  | [], _ => true
  | _ :: _, [] => false
  | p :: ps, c :: cs => p == c && startsWithList ps cs

/-- Auxiliary: `containsList pat l` is true when `pat` occurs as a
contiguous sublist of `l`. -/
def containsList (pat : List Char) : List Char → Bool
  | [] => startsWithList pat []
  | c :: cs => startsWithList pat (c :: cs) || containsList pat cs

/-- Model of `haystack.includes(needle)` on JavaScript strings. -/
def jsIncludes (haystack needle : String) : Bool :=
  containsList needle.data haystack.data

/-- Model of `s.startsWith(pat)` on JavaScript strings. -/
def jsStartsWith (s pat : String) : Bool :=
  startsWithList pat.data s.data

/-- First-occurrence deduplication of a list, keeping first-seen order.
This is the semantics of spreading a JavaScript `Set` built from a list
(`[...new Set(xs)]`): a `Set` iterates in first-insertion order. -/
def dedupFirst : List String → List String
  | [] => []
  | x :: xs => x :: dedupFirst (xs.filter (fun y => y ≠ x))
termination_by l => l.length
decreasing_by simp; exact Nat.lt_succ_of_le (List.length_filter_le _ _)

/-- Model of the guarded push `if (!list.includes(x)) list.push(x)` used
by `processProjectData` for the sector and partner lists. -/
def pushIfAbsent (l : List String) (x : String) : List String :=
  if x ∈ l then l else l ++ [x]

/-! ### Data model (`ProjectProperties`, `ProjectFeature` of part_002) -/

/-- Record fields of one project feature (`interface ProjectProperties`).
Field names are the camel-cased versions of the quoted JSON keys. -/
structure ProjectProperties where
  projectName : String
  country : String
  region : String
  budget : ℚ
  beneficiaries : ℚ
  sector : String
  implementingPartner : String
  status : Option String := none
  startDate : Option String := none
  endDate : Option String := none
  description : Option String := none
  deriving DecidableEq

/-- One point feature of the project GeoJSON (`interface ProjectFeature`). -/
structure ProjectFeature where
  properties : ProjectProperties
  coordinates : ℚ × ℚ
  deriving DecidableEq

/-- Per-country accumulator value built by `processProjectData`
(lines 284-329 of part_002). -/
structure CountryData where
  projects : List ProjectProperties
  totalBudget : ℚ
  totalBeneficiaries : ℚ
  sectors : List String
  partners : List String
  coordinates : ℚ × ℚ
  deriving DecidableEq

/-! ### The aggregation `processProjectData` (part_002 lines 284-329) -/

/-- Initial `CountryData` for a country seen for the first time
(the object literal at lines 300-307). -/
def seedCountryData (f : ProjectFeature) : CountryData :=
  { projects := [f.properties]
    totalBudget := f.properties.budget
    totalBeneficiaries := f.properties.beneficiaries
    sectors := [f.properties.sector]
    partners := [f.properties.implementingPartner]
    coordinates := f.coordinates }

/-- Update of an existing `CountryData` with a further record for the
same country (lines 309-324). -/
def extendCountryData (d : CountryData) (f : ProjectFeature) : CountryData :=
  { d with
    projects := d.projects ++ [f.properties]
    totalBudget := d.totalBudget + f.properties.budget
    totalBeneficiaries := d.totalBeneficiaries + f.properties.beneficiaries
    sectors := pushIfAbsent d.sectors f.properties.sector
    partners := pushIfAbsent d.partners f.properties.implementingPartner }

/-- One `forEach` step of `processProjectData`: the body of the loop at
lines 297-326. A `CountryData` object is always truthy, so the source
test `if (!projectsByCountryRegion[country])` is a key-presence test;
on an association list with unique keys this updates the unique entry
for the country, or appends a fresh entry at the end. -/
def addFeature : List (String × CountryData) → ProjectFeature → List (String × CountryData)
  | [], f => [(f.properties.country, seedCountryData f)]
  | (k, d) :: rest, f =>
      if k = f.properties.country then (k, extendCountryData d f) :: rest
      else (k, d) :: addFeature rest f

/-- The aggregation `processProjectData`: a single left-to-right pass over
the features, grouping by the `Country` property. -/
def processProjectData (projectData : List ProjectFeature) : List (String × CountryData) :=
  projectData.foldl addFeature []

/-- Keys (country names) of the aggregation result, in insertion order. -/
def countryKeys (m : List (String × CountryData)) : List String :=
  m.map Prod.fst

/-- Model of the JavaScript property read `projectsByCountryRegion[c]`. -/
def getCountry : List (String × CountryData) → String → Option CountryData
  | [], _ => none
  | (k, d) :: rest, c => if k = c then some d else getCountry rest c

/-- Sector occurrence sequence of the records of country `c`, in input
order (used to state the first-seen-order property). -/
def sectorsFor (records : List ProjectFeature) (c : String) : List String :=
  (records.filter (fun f => f.properties.country = c)).map (fun f => f.properties.sector)

/-- Partner occurrence sequence of the records of country `c`, in input
order. -/
def partnersFor (records : List ProjectFeature) (c : String) : List String :=
  (records.filter (fun f => f.properties.country = c)).map (fun f => f.properties.implementingPartner)

/-- Sum of the `totalBudget` fields over all aggregates. -/
def totalBudgetOf (m : List (String × CountryData)) : ℚ :=
  (m.map (fun p => p.2.totalBudget)).sum

/-- Sum of the `totalBeneficiaries` fields over all aggregates. -/
def totalBeneficiariesOf (m : List (String × CountryData)) : ℚ :=
  (m.map (fun p => p.2.totalBeneficiaries)).sum

/-- Sum of the `Budget` fields over the input records. -/
def inputBudgetOf (l : List ProjectFeature) : ℚ :=
  (l.map (fun f => f.properties.budget)).sum

/-- Sum of the `Beneficiaries` fields over the input records. -/
def inputBeneficiariesOf (l : List ProjectFeature) : ℚ :=
  (l.map (fun f => f.properties.beneficiaries)).sum

/-! ### `calculateProjectStats` (part_002 lines 522-542) -/

/-- Result of `calculateProjectStats`. -/
structure Stats where
  totalBudget : ℚ
  totalBeneficiaries : ℚ
  sectors : List String
  partners : List String
  deriving DecidableEq

/-- Statistics over a list of matched project features: `reduce` sums
with initial value `0`, and `[...new Set(...)]` deduplications. -/
def calculateProjectStats (projects : List ProjectFeature) : Stats :=
  { totalBudget := projects.foldl (fun sum p => sum + p.properties.budget) 0
    totalBeneficiaries := projects.foldl (fun sum p => sum + p.properties.beneficiaries) 0
    sectors := dedupFirst (projects.map (fun p => p.properties.sector))
    partners := dedupFirst (projects.map (fun p => p.properties.implementingPartner)) }

/-! ### Numeric display formatting (part_002 lines 561-652) -/

/-- Decimal digit character of `d < 10`. -/
def digitChar (d : ℕ) : Char := Char.ofNat (48 + d)

/-- Numeric value of a decimal digit character. -/
def charDigitVal (c : Char) : ℕ := c.toNat - 48

/-- Fuel-driven little-endian decimal digit extraction; the fuel only
bounds the recursion depth and never runs out when it starts at `n`. -/
def natDigitsAux : ℕ → ℕ → List ℕ
  | 0, n => [n]
  | fuel + 1, n => if n < 10 then [n] else (n % 10) :: natDigitsAux fuel (n / 10)

/-- Little-endian decimal digits of a natural number (`0` has digits `[0]`). -/
def natDigitsLE (n : ℕ) : List ℕ := natDigitsAux n n

/-- Value of a little-endian decimal digit list. -/
def unDigitsLE (ds : List ℕ) : ℕ :=
  ds.foldr (fun d acc => d + 10 * acc) 0

/-- Fuel-driven chunking; the fuel only bounds the recursion depth. -/
def chunk3Aux : ℕ → List ℕ → List (List ℕ)
  | _, [] => []
  | 0, l => [l]
  | fuel + 1, x :: xs => (x :: xs).take 3 :: chunk3Aux fuel ((x :: xs).drop 3)

/-- Split a list into chunks of three, starting at the front. -/
def chunk3 (l : List ℕ) : List (List ℕ) := chunk3Aux l.length l

/-- Thousands-separated decimal rendering of a natural number: the
en-US integer output of `Number.prototype.toLocaleString`. -/
def groupNat (n : ℕ) : String :=
  String.mk (List.intercalate [','] (((chunk3 (natDigitsLE n)).map
    (fun c => (c.map digitChar).reverse)).reverse))

/-- Thousands-separated rendering of an integer. -/
def intToLocaleString (z : ℤ) : String :=
  (if z < 0 then "-" else "") ++ groupNat z.natAbs

/-- Model of `parseInt(String(x))` for a JavaScript number in plain
decimal notation (the relevant range `1e-7 <= |x| < 1e21`, plus `0`):
truncation of the value toward zero. -/
def jsTrunc (q : ℚ) : ℤ :=
  if 0 ≤ q then ⌊q⌋ else ⌈q⌉

/-- Model of `Number.prototype.toLocaleString()` with default options in
the en-US locale: thousands-separated integer part and at most three
fraction digits, rounding half away from zero, trailing zeros dropped. -/
def ratToLocaleString (q : ℚ) : String :=
  let sign := if q < 0 then "-" else ""
  let total : ℕ := (⌊|q| * 1000 + 1/2⌋).toNat
  let intPart := total / 1000
  let frac := total % 1000
  let fracChars :=
    (([frac / 100, frac / 10 % 10, frac % 10].map digitChar).reverse.dropWhile
      (fun c => c = '0')).reverse
  sign ++ groupNat intPart ++ (if fracChars.isEmpty then "" else "." ++ String.mk fracChars)

/-- Digits shown by a rendered numeral, read back as a natural number:
strip the thousands separators and evaluate the decimal digits. -/
def displayedNatValue (s : String) : ℕ :=
  unDigitsLE (((s.data.filter (fun c => c ≠ ',')).map charDigitVal).reverse)

/-- Budget numeral of the country popup (part_002 line 568):
`stats.totalBudget.toLocaleString()`. -/
def countryBudgetNumeral (q : ℚ) : String := ratToLocaleString q

/-- Beneficiaries numeral of the country popup (line 572). -/
def countryBeneficiariesNumeral (q : ℚ) : String := ratToLocaleString q

/-- Budget numeral of the project-point popup (line 600):
`parseInt(String(properties.totalBudget)).toLocaleString()`. -/
def projectBudgetNumeral (q : ℚ) : String := intToLocaleString (jsTrunc q)

/-- Beneficiaries numeral of the project-point popup (lines 601-603). -/
def projectBeneficiariesNumeral (q : ℚ) : String := intToLocaleString (jsTrunc q)

/-! ### Popup markup (part_002 lines 544-652). The templates are
reproduced with their interpolations; inter-tag whitespace of the
template literals is not preserved. -/

/-- Markup of the country popup (`createPopupHTML`). -/
def createPopupHTML (countryName : String) (projects : List ProjectFeature)
    (stats : Stats) : String :=
  let projectsList := String.join (projects.map
    (fun p => "<li>" ++ p.properties.projectName ++ "</li>"))
  let sectorsList := String.join (stats.sectors.map
    (fun sector => "<li>" ++ sector ++ "</li>"))
  let partnersList := String.join (stats.partners.map
    (fun partner => "<li>" ++ partner ++ "</li>"))
  "<div class=\"popup-content\"><h3 class=\"popup-title\">" ++ countryName ++
  "</h3><div class=\"popup-body\"><div class=\"popup-stats\">" ++
  "<div class=\"stat-item\"><span class=\"stat-label\">Total Budget</span>" ++
  "<span class=\"stat-value budget\">$" ++ countryBudgetNumeral stats.totalBudget ++
  "</span></div><div class=\"stat-item\"><span class=\"stat-label\">Total Beneficiaries</span>" ++
  "<span class=\"stat-value beneficiaries\">" ++ countryBeneficiariesNumeral stats.totalBeneficiaries ++
  "</span></div></div><div class=\"popup-details\"><div class=\"section\"><h4>Projects (" ++
  groupNat projects.length ++ ")</h4><ul class=\"project-list\">" ++ projectsList ++
  "</ul></div><div class=\"section\"><h4>Sectors</h4><ul class=\"sector-list\">" ++ sectorsList ++
  "</ul></div><div class=\"section\"><h4>Implementing Partners</h4><ul class=\"partner-list\">" ++
  partnersList ++ "</ul></div></div></div></div>"

/-- Aggregated-point payload (`interface ProjectLocationProperties`). -/
structure ProjectLocationProperties where
  country : String
  region : String
  projects : List ProjectProperties
  totalBudget : ℚ
  totalBeneficiaries : ℚ
  sectors : List String
  partners : List String
  deriving DecidableEq

/-- Markup of the project-point popup (`createProjectPopupHTML`). In the
model the properties are already structured, so the `JSON.parse`
branches and the `Array.isArray` guards of the source resolve to the
parsed values. -/
def createProjectPopupHTML (props : ProjectLocationProperties) : String :=
  let projectsList := String.join (props.projects.map
    (fun p => "<li>" ++ p.projectName ++ "</li>"))
  let sectorsList := String.join (props.sectors.map
    (fun sector => "<li>" ++ sector ++ "</li>"))
  let partnersList := String.join (props.partners.map
    (fun partner => "<li>" ++ partner ++ "</li>"))
  "<div class=\"popup-content\"><h3 class=\"popup-title\">" ++ props.country ++
  "</h3><div class=\"popup-body\"><div class=\"popup-stats\">" ++
  "<div class=\"stat-item\"><span class=\"stat-label\">Total Budget</span>" ++
  "<span class=\"stat-value budget\">$" ++ projectBudgetNumeral props.totalBudget ++
  "</span></div><div class=\"stat-item\"><span class=\"stat-label\">Total Beneficiaries</span>" ++
  "<span class=\"stat-value beneficiaries\">" ++ projectBeneficiariesNumeral props.totalBeneficiaries ++
  "</span></div></div><div class=\"popup-details\"><div class=\"section\"><h4>Projects (" ++
  groupNat props.projects.length ++ ")</h4><ul class=\"project-list\">" ++ projectsList ++
  "</ul></div><div class=\"section\"><h4>Sectors</h4><ul class=\"sector-list\">" ++ sectorsList ++
  "</ul></div><div class=\"section\"><h4>Implementing Partners</h4><ul class=\"partner-list\">" ++
  partnersList ++ "</ul></div></div></div></div>"

/-! ### Map interaction state machine (part_002 lines 377-739) -/

/-- Camera position of the map view. -/
structure CameraState where
  center : ℚ × ℚ
  zoom : ℚ
  deriving DecidableEq

/-- A boundary polygon feature as seen by the click handler: the
synthetic numeric id, the resolved `NAME` property (possibly absent),
and the outer ring of the polygon. -/
structure BoundaryFeature where
  id : Int
  name : Option String
  outerRing : List (ℚ × ℚ)
  deriving DecidableEq

/-- A popup displayed on the map: either a country popup built by
`handleCountryClick`, or a point popup built by `handleProjectClick`. -/
inductive Popup where
  | country (name : String) (projects : List ProjectFeature) (stats : Stats)
  | point (props : ProjectLocationProperties)
  deriving DecidableEq

/-- State owned by the map component: the DOM popup collection, the
`world-hover` layer filter (feature id matched; `-1` matches nothing),
the `hoveredStateId` React state, the canvas cursor, the
`selectedCountry` React state, the camera, and a count of `easeTo`
camera animations issued. -/
structure MapState where
  popups : List Popup
  hoverFilterId : Int
  hoveredStateId : Option Int
  cursor : String
  selectedCountry : Option String
  camera : CameraState
  animations : ℕ
  deriving DecidableEq

/-- World default camera (`WORLD_CENTER`, `DEFAULT_ZOOM`). -/
def worldCamera : CameraState := { center := (20, 0), zoom := 2 }

/-- Initial component state: no popups, hover filter matching nothing
(`["==", ["get", "feature_id"], -1]`), no hovered id, default cursor,
no selection, world camera. -/
def initialState : MapState :=
  { popups := []
    hoverFilterId := -1
    hoveredStateId := none
    cursor := ""
    selectedCountry := none
    camera := worldCamera
    animations := 0 }

/-- Bounds of a ring: ((west, south), (east, north)), by folding
`bounds.extend` over the coordinates. -/
def ringBounds : List (ℚ × ℚ) → (ℚ × ℚ) × (ℚ × ℚ)
  | [] => ((0, 0), (0, 0))
  | c :: rest =>
      rest.foldl
        (fun b p => ((min b.1.1 p.1, min b.1.2 p.2), (max b.2.1 p.1, max b.2.2 p.2)))
        (c, c)

/-- `showPopup` (part_002 lines 654-697): add the popup, ease the camera
to the bounds center shifted right by one degree, set the hover filter
to the clicked feature and record its id as hovered. -/
def showPopup (s : MapState) (feature : BoundaryFeature) (p : Popup) : MapState :=
  let b := ringBounds feature.outerRing
  let centerLng := (b.1.1 + b.2.1) / 2
  let centerLat := (b.1.2 + b.2.2) / 2
  { s with
    popups := s.popups ++ [p]
    camera := { s.camera with center := (centerLng + 1, centerLat) }
    animations := s.animations + 1
    hoverFilterId := feature.id
    hoveredStateId := some feature.id }

/-- The record filter of `handleCountryClick` (lines 454-458): every
project whose `Country`, lowercased, contains the lowercased resolved
country name as a substring. -/
def countryMatches (records : List ProjectFeature) (countryName : String) :
    List ProjectFeature :=
  records.filter (fun p => jsIncludes (jsToLower p.properties.country) (jsToLower countryName))

/-- `handleCountryClick` (lines 439-473): remove all existing popups,
resolve the display name with the `|| "Unknown Country"` fallback,
filter the raw records, and either return silently (zero matches, after
a `console.log`) or compute fresh statistics and show the popup. -/
def handleCountryClick (s : MapState) (feature : BoundaryFeature)
    (records : List ProjectFeature) : MapState :=
  let s1 := { s with popups := [] }
  let countryName := jsOrString feature.name "Unknown Country"
  let matching := countryMatches records countryName
  if matching.length = 0 then s1
  else
    let stats := calculateProjectStats matching
    showPopup s1 feature (Popup.country countryName matching stats)

/-- `handleProjectClick` (lines 475-520): remove all existing popups and
add a point popup anchored at the clicked point; no camera movement. -/
def handleProjectClick (s : MapState) (props : ProjectLocationProperties) : MapState :=
  let s1 := { s with popups := [] }
  { s1 with popups := s1.popups ++ [Popup.point props] }

/-- The `hoveredStateId` value seen inside the map event listeners.
The listeners are registered exactly once, inside the `load` callback
of the mount effect (`useEffect(..., [])`), so their closures capture
the first render's `const hoveredStateId` binding — the initial
`null`. Later `setHoveredStateId` calls update the state of later
renders but never this captured binding (a stale closure), so every
read of `hoveredStateId` inside the listeners yields `null`. -/
def capturedHoveredStateId : Option Int := none

/-- The `mousemove` listener on `world-fills` (lines 381-400): the guard
reads the captured (stale) `hoveredStateId` and is never taken; the
filter is then set unconditionally to the entered feature id, the id is
recorded and the cursor becomes a pointer, so the end state matches the
source's apparent intent despite the dead guard. -/
def mousemoveHandler (s : MapState) (id : Int) : MapState :=
  let s1 := if capturedHoveredStateId ≠ none then { s with hoverFilterId := -1 } else s
  { s1 with hoverFilterId := id, hoveredStateId := some id, cursor := "pointer" }

/-- The `mouseleave` listener on `world-fills` (lines 403-419): the guard
reads the captured (stale) `hoveredStateId` and is never taken, so the
`world-hover` filter reset at lines 408-412 never executes; only the
recorded id and the cursor are cleared. -/
def mouseleaveHandler (s : MapState) : MapState :=
  let s1 := if capturedHoveredStateId ≠ none then { s with hoverFilterId := -1 } else s
  { s1 with hoveredStateId := none, cursor := "" }

/-- The static country table of `focusOnCountry` (lines 706-718). -/
def countryCoordinates (name : String) : Option CameraState :=
  if name = "Afghanistan" then some { center := (69.2075, 34.5553), zoom := 5 }
  else if name = "Iraq" then some { center := (44, 33), zoom := 5 }
  else if name = "Syria" then some { center := (38, 35), zoom := 6 }
  else if name = "Yemen" then some { center := (47, 15.5), zoom := 6 }
  else if name = "Ukraine" then some { center := (31, 49), zoom := 5 }
  else if name = "Somalia" then some { center := (46, 5), zoom := 5 }
  else if name = "Ethiopia" then some { center := (40, 9), zoom := 5 }
  else if name = "Kenya" then some { center := (37.9, -0.03), zoom := 5 }
  else none

/-- `focusOnCountry` (lines 699-728): record the selection
unconditionally, then animate the camera only when the name is in the
static table. -/
def focusOnCountry (s : MapState) (name : String) : MapState :=
  let s1 := { s with selectedCountry := some name }
  match countryCoordinates name with
  | some cam => { s1 with camera := cam, animations := s1.animations + 1 }
  | none => s1

/-- `resetView` (lines 730-739): clear the selection and animate back to
the world camera. -/
def resetView (s : MapState) : MapState :=
  { s with
    selectedCountry := none
    camera := worldCamera
    animations := s.animations + 1 }

/-- User interactions routed by `addMapEventListeners` and the filter
panel; `closePopup` is the close button of a displayed popup. -/
inductive MapEvent where
  | mousemove (id : Int)
  | mouseleave
  | countryClick (feature : BoundaryFeature) (records : List ProjectFeature)
  | projectClick (props : ProjectLocationProperties)
  | focusCountry (name : String)
  | reset
  | closePopup
  deriving DecidableEq

/-- One step of the interaction state machine. -/
def step (s : MapState) : MapEvent → MapState
  | .mousemove id => mousemoveHandler s id
  | .mouseleave => mouseleaveHandler s
  | .countryClick feature records => handleCountryClick s feature records
  | .projectClick props => handleProjectClick s props
  | .focusCountry name => focusOnCountry s name
  | .reset => resetView s
  | .closePopup => { s with popups := [] }

/-- States reachable from the initial component state by user events. -/
inductive Reachable : MapState → Prop
  | init : Reachable initialState
  | next {s : MapState} (h : Reachable s) (e : MapEvent) : Reachable (step s e)

/-! ### Environment validator (`src/src/lib/config.ts` lines 113-132) -/

/-- Model of `ENV.MAPBOX_ACCESS_TOKEN`: the environment variable with
fallback `process.env.NEXT_PUBLIC_MAPBOX_ACCESS_TOKEN || ""`. -/
def envToken (v : Option String) : String :=
  match v with
  | none => ""
  | some s => s

/-- Result object of `validateEnvironment`. -/
structure ValidationResult where
  isValid : Bool
  errors : List String
  deriving DecidableEq

/-- `validateEnvironment`: an empty token is reported as missing, a
token without the public prefix as invalid; `isValid` is
`errors.length === 0`. The production-mode `console.error` is a pure
logging side effect and is not part of the returned value. -/
def validateEnvironment (tokenVar : Option String) : ValidationResult :=
  let tok := envToken tokenVar
  let errors : List String :=
    if tok = "" then ["NEXT_PUBLIC_MAPBOX_ACCESS_TOKEN is required"]
    else if ¬ (jsStartsWith tok "pk." = true) then
      ["NEXT_PUBLIC_MAPBOX_ACCESS_TOKEN must be a valid Mapbox public token (starts with pk.)"]
    else []
  { isValid := errors.length == 0, errors := errors }

/-! ### Concrete fixtures used by witnesses and counterexamples -/

/-- First Kenya record of the spec scenario (section 8 of the spec). -/
def kenyaRecord1 : ProjectFeature :=
  { properties :=
      { projectName := "Health Initiative"
        country := "Kenya"
        region := "Nairobi"
        budget := 1000
        beneficiaries := 50
        sector := "Health"
        implementingPartner := "WHO" }
    coordinates := (37, -1) }

/-- Second Kenya record of the spec scenario. -/
def kenyaRecord2 : ProjectFeature :=
  { properties :=
      { projectName := "Clinic Expansion"
        country := "Kenya"
        region := "Mombasa"
        budget := 2000
        beneficiaries := 30
        sector := "Health"
        implementingPartner := "UNICEF" }
    coordinates := (39, -4) }

/-- Two-record example input. -/
def exampleRecords : List ProjectFeature := [kenyaRecord1, kenyaRecord2]

/-- Expected Kenya aggregate of the two-record example. -/
def kenyaAggregate : CountryData :=
  { projects := [kenyaRecord1.properties, kenyaRecord2.properties]
    totalBudget := 3000
    totalBeneficiaries := 80
    sectors := ["Health"]
    partners := ["WHO", "UNICEF"]
    coordinates := (37, -1) }

/-- A boundary feature resolving to the name Kenya. -/
def kenyaBoundary : BoundaryFeature :=
  { id := 3, name := some "Kenya", outerRing := [(34, -4), (42, -4), (42, 5), (34, 5)] }

/-- A boundary feature resolving to a name matching no record. -/
def atlantisBoundary : BoundaryFeature :=
  { id := 7, name := some "Atlantis", outerRing := [(0, 0), (1, 0), (1, 1)] }

/-- Payload of an aggregated point used in examples. -/
def examplePointProps : ProjectLocationProperties :=
  { country := "Kenya"
    region := "Global"
    projects := [kenyaRecord1.properties]
    totalBudget := 1000
    totalBeneficiaries := 50
    sectors := ["Health"]
    partners := ["WHO"] }

/-- A reachable state with one popup displayed: the state after clicking
an aggregated point from the initial state. -/
def statePopupOpen : MapState := step initialState (.projectClick examplePointProps)

/-! ## Helper lemmas on the aggregation -/

/-- One `addFeature` step adds the weight of the new feature to any
additive field of the aggregates. -/
theorem sumOver_addFeature (g : CountryData → ℚ) (w : ProjectFeature → ℚ)
    (hseed : ∀ f, g (seedCountryData f) = w f)
    (hext : ∀ d f, g (extendCountryData d f) = g d + w f)
    (m : List (String × CountryData)) (f : ProjectFeature) :
    ((addFeature m f).map (fun p => g p.2)).sum = (m.map (fun p => g p.2)).sum + w f := by
  induction m with
  | nil => simp [addFeature, hseed]
  | cons p rest ih =>
      obtain ⟨k, d⟩ := p
      by_cases hk : k = f.properties.country
      · simp only [addFeature, if_pos hk, List.map_cons, List.sum_cons, hext]
        ring
      · simp only [addFeature, if_neg hk, List.map_cons, List.sum_cons, ih]
        ring

/-- Folding `addFeature` over a feature list adds the total weight of
the list to any additive field of the aggregates. -/
theorem sumOver_foldl (g : CountryData → ℚ) (w : ProjectFeature → ℚ)
    (hseed : ∀ f, g (seedCountryData f) = w f)
    (hext : ∀ d f, g (extendCountryData d f) = g d + w f)
    (l : List ProjectFeature) :
    ∀ m, ((l.foldl addFeature m).map (fun p => g p.2)).sum =
      (m.map (fun p => g p.2)).sum + (l.map w).sum := by
  induction l with
  | nil => intro m; simp
  | cons f rest ih =>
      intro m
      simp only [List.foldl_cons, List.map_cons, List.sum_cons]
      rw [ih, sumOver_addFeature g w hseed hext]
      ring

/-- Keys after one `addFeature` step: unchanged for a known country,
extended at the end for a new one. -/
theorem countryKeys_addFeature (m : List (String × CountryData)) (f : ProjectFeature) :
    countryKeys (addFeature m f) =
      if f.properties.country ∈ countryKeys m then countryKeys m
      else countryKeys m ++ [f.properties.country] := by
  induction m with
  | nil => simp [addFeature, countryKeys]
  | cons p rest ih =>
      obtain ⟨k, d⟩ := p
      by_cases hk : k = f.properties.country
      · simp [addFeature, hk, countryKeys]
      · have hne : ¬ f.properties.country = k := fun h => hk h.symm
        simp only [addFeature, if_neg hk, countryKeys, List.map_cons, List.mem_cons, hne,
          false_or]
        simp only [countryKeys] at ih
        rw [ih]
        by_cases hmem : f.properties.country ∈ rest.map Prod.fst <;> simp [hmem]

/-- Membership in the aggregate keys after a fold of `addFeature`. -/
theorem mem_countryKeys_foldl (l : List ProjectFeature) :
    ∀ (m : List (String × CountryData)) (c : String),
      c ∈ countryKeys (l.foldl addFeature m) ↔
        c ∈ countryKeys m ∨ c ∈ l.map (fun f => f.properties.country) := by
  induction l with
  | nil => intro m c; simp
  | cons f rest ih =>
      intro m c
      simp only [List.foldl_cons, List.map_cons, List.mem_cons]
      rw [ih, countryKeys_addFeature]
      by_cases h : f.properties.country ∈ countryKeys m <;>
        by_cases hc : c = f.properties.country <;>
          simp [h, hc, List.mem_append]

/-- A fold of `addFeature` preserves key uniqueness. -/
theorem nodup_countryKeys_foldl (l : List ProjectFeature) :
    ∀ m : List (String × CountryData),
      (countryKeys m).Nodup → (countryKeys (l.foldl addFeature m)).Nodup := by
  induction l with
  | nil => intro m hm; simpa using hm
  | cons f rest ih =>
      intro m hm
      simp only [List.foldl_cons]
      refine ih _ ?_
      rw [countryKeys_addFeature]
      by_cases h : f.properties.country ∈ countryKeys m
      · simpa [h] using hm
      · simp [h, List.nodup_append, hm]

/-! ## Helper lemmas on first-seen deduplication -/

/-- Membership is preserved by first-occurrence deduplication. -/
theorem mem_dedupFirst (l : List String) (y : String) : y ∈ dedupFirst l ↔ y ∈ l := by
  induction l using dedupFirst.induct with
  | case1 => simp [dedupFirst]
  | case2 x xs ih =>
      rw [dedupFirst]
      simp only [List.mem_cons, ih, List.mem_filter]
      constructor
      · rintro (rfl | ⟨hmem, _⟩)
        · exact Or.inl rfl
        · exact Or.inr hmem
      · rintro (rfl | hmem)
        · exact Or.inl rfl
        · by_cases hxy : y = x
          · exact Or.inl hxy
          · exact Or.inr ⟨hmem, by simpa using hxy⟩

/-- First-occurrence deduplication yields a duplicate-free list. -/
theorem nodup_dedupFirst (l : List String) : (dedupFirst l).Nodup := by
  induction l using dedupFirst.induct with
  | case1 => simp [dedupFirst]
  | case2 x xs ih =>
      rw [dedupFirst]
      refine List.nodup_cons.mpr ⟨?_, ih⟩
      rw [mem_dedupFirst]
      simp

/-- Appending one element to the input of `dedupFirst` appends it to the
output exactly when it is new. -/
theorem dedupFirst_concat (xs : List String) (x : String) :
    dedupFirst (xs ++ [x]) =
      if x ∈ xs then dedupFirst xs else dedupFirst xs ++ [x] := by
  induction xs using dedupFirst.induct with
  | case1 => simp [dedupFirst]
  | case2 y ys ih =>
      rw [List.cons_append, dedupFirst, dedupFirst]
      by_cases hxy : x = y
      · subst hxy
        simp [List.filter_append]
      · have hfilter : (ys ++ [x]).filter (fun z => z ≠ y) =
            ys.filter (fun z => z ≠ y) ++ [x] := by
          simp [List.filter_append, hxy]
        rw [hfilter, ih]
        have hmemf : x ∈ ys.filter (fun z => z ≠ y) ↔ x ∈ ys := by
          simp [List.mem_filter, hxy]
        by_cases hmem : x ∈ ys
        · simp [hmemf, hmem, hxy]
        · simp [hmemf, hmem, hxy]

/-- The guarded push of the source is one step of first-occurrence
deduplication. -/
theorem pushIfAbsent_dedupFirst (xs : List String) (x : String) :
    pushIfAbsent (dedupFirst xs) x = dedupFirst (xs ++ [x]) := by
  rw [dedupFirst_concat, pushIfAbsent]
  by_cases hmem : x ∈ xs
  · simp [mem_dedupFirst, hmem]
  · simp [mem_dedupFirst, hmem]

/-! ## Helper lemmas on `getCountry` -/

/-- Reading the key just written by `addFeature`. -/
theorem getCountry_addFeature_self (m : List (String × CountryData)) (f : ProjectFeature) :
    getCountry (addFeature m f) f.properties.country =
      some (match getCountry m f.properties.country with
            | none => seedCountryData f
            | some d => extendCountryData d f) := by
  induction m with
  | nil => simp [addFeature, getCountry]
  | cons p rest ih =>
      obtain ⟨k, d⟩ := p
      by_cases hk : k = f.properties.country
      · simp [addFeature, hk, getCountry]
      · simp [addFeature, hk, getCountry, ih]

/-- Reading any other key is unchanged by `addFeature`. -/
theorem getCountry_addFeature_ne (m : List (String × CountryData)) (f : ProjectFeature)
    (c : String) (hc : c ≠ f.properties.country) :
    getCountry (addFeature m f) c = getCountry m c := by
  have hcf : ¬ f.properties.country = c := fun h => hc h.symm
  induction m with
  | nil => simp [addFeature, getCountry, hcf]
  | cons p rest ih =>
      obtain ⟨k, d⟩ := p
      by_cases hk : k = f.properties.country
      · subst hk
        simp [addFeature, getCountry, hcf]
      · by_cases hkc : k = c
        · subst hkc
          simp [addFeature, hk, getCountry]
        · simp [addFeature, hk, getCountry, hkc, ih]

/-- A key is absent exactly when `getCountry` returns `none`. -/
theorem getCountry_eq_none_iff (m : List (String × CountryData)) (c : String) :
    getCountry m c = none ↔ c ∉ countryKeys m := by
  induction m with
  | nil => simp [getCountry, countryKeys]
  | cons p rest ih =>
      obtain ⟨k, d⟩ := p
      by_cases hk : k = c
      · subst hk
        simp [getCountry, countryKeys]
      · have hck : ¬ c = k := fun h => hk h.symm
        simp only [getCountry, if_neg hk]
        rw [ih]
        simp [countryKeys, hck]

/-- On an association list with unique keys, membership of a pair is the
same as a successful read. -/
theorem mem_iff_getCountry (m : List (String × CountryData)) (c : String) (d : CountryData)
    (hnodup : (countryKeys m).Nodup) :
    (c, d) ∈ m ↔ getCountry m c = some d := by
  induction m with
  | nil => simp [getCountry]
  | cons p rest ih =>
      obtain ⟨k, d'⟩ := p
      simp only [countryKeys, List.map_cons, List.nodup_cons] at hnodup
      obtain ⟨hknotin, hrest⟩ := hnodup
      by_cases hk : k = c
      · subst hk
        have hget : getCountry ((k, d') :: rest) k = some d' := by simp [getCountry]
        rw [hget]
        constructor
        · intro hmem
          rcases List.mem_cons.mp hmem with heq | hmem'
          · exact congrArg some (congrArg Prod.snd heq).symm
          · exact absurd (List.mem_map_of_mem Prod.fst hmem') hknotin
        · intro hsome
          exact List.mem_cons.mpr (Or.inl (by rw [Option.some.inj hsome]))
      · have hck : ¬ c = k := fun h => hk h.symm
        simp only [getCountry, if_neg hk, List.mem_cons, Prod.mk.injEq]
        rw [← ih hrest]
        simp [hck]

/-- The per-country content invariant of the aggregation: the sector and
partner lists of the aggregate of country `k` are the first-occurrence
deduplications of the sector and partner sequences of that country's
records, in input order. -/
theorem getCountry_processProjectData (records : List ProjectFeature) :
    ∀ (k : String) (d : CountryData),
      getCountry (processProjectData records) k = some d →
        d.sectors = dedupFirst (sectorsFor records k) ∧
        d.partners = dedupFirst (partnersFor records k) := by
  induction records using List.reverseRecOn with
  | nil => intro k d h; simp [processProjectData, getCountry] at h
  | append_singleton l f ih =>
      intro k d h
      rw [processProjectData, List.foldl_concat] at h
      by_cases hk : k = f.properties.country
      · subst hk
        rw [getCountry_addFeature_self] at h
        have hsec : sectorsFor (l ++ [f]) f.properties.country =
            sectorsFor l f.properties.country ++ [f.properties.sector] := by
          simp [sectorsFor, List.filter_append]
        have hpart : partnersFor (l ++ [f]) f.properties.country =
            partnersFor l f.properties.country ++ [f.properties.implementingPartner] := by
          simp [partnersFor, List.filter_append]
        rcases hget : getCountry (processProjectData l) f.properties.country with _ | d0
        · rw [processProjectData] at hget
          rw [hget] at h
          have hnotin : f.properties.country ∉ countryKeys (List.foldl addFeature [] l) :=
            (getCountry_eq_none_iff _ _).mp hget
          have hnotmem : f.properties.country ∉ l.map (fun g => g.properties.country) := by
            intro hmem
            exact hnotin ((mem_countryKeys_foldl l [] _).mpr (Or.inr hmem))
          have hfilter : l.filter (fun g => g.properties.country = f.properties.country) = [] := by
            rw [List.filter_eq_nil_iff]
            intro a ha hcountry
            exact hnotmem (List.mem_map.mpr ⟨a, ha, by simpa using hcountry⟩)
          obtain rfl : seedCountryData f = d := by simpa using h
          rw [hsec, hpart]
          simp [seedCountryData, sectorsFor, partnersFor, hfilter, dedupFirst]
        · rw [processProjectData] at hget
          rw [hget] at h
          obtain rfl : extendCountryData d0 f = d := by simpa using h
          obtain ⟨hs0, hp0⟩ := ih _ _ (by rw [processProjectData]; exact hget)
          rw [hsec, hpart]
          constructor
          · rw [extendCountryData]
            simp only [hs0]
            exact pushIfAbsent_dedupFirst _ _
          · rw [extendCountryData]
            simp only [hp0]
            exact pushIfAbsent_dedupFirst _ _
      · rw [getCountry_addFeature_ne _ _ _ hk] at h
        have hfk : ¬ f.properties.country = k := fun heq => hk heq.symm
        have hsec : sectorsFor (l ++ [f]) k = sectorsFor l k := by
          simp [sectorsFor, List.filter_append, hfk]
        have hpart : partnersFor (l ++ [f]) k = partnersFor l k := by
          simp [partnersFor, List.filter_append, hfk]
        rw [hsec, hpart]
        exact ih k d (by rw [processProjectData]; exact h)

/-! ## Claim theorems -/

/-- C1: for every non-empty list of project records, the sum of
`totalBudget` over all country aggregates produced by
`processProjectData` equals the sum of the `Budget` fields over all
input records, and likewise for `totalBeneficiaries` and the
`Beneficiaries` fields. -/
theorem processProjectData_conserves_totals (records : List ProjectFeature)
    (_hne : records ≠ []) :
    totalBudgetOf (processProjectData records) = inputBudgetOf records ∧
    totalBeneficiariesOf (processProjectData records) = inputBeneficiariesOf records := by
  constructor
  · have h := sumOver_foldl (fun d => d.totalBudget) (fun f => f.properties.budget)
      (fun f => rfl) (fun d f => rfl) records []
    simpa [processProjectData, totalBudgetOf, inputBudgetOf] using h
  · have h := sumOver_foldl (fun d => d.totalBeneficiaries)
      (fun f => f.properties.beneficiaries) (fun f => rfl) (fun d f => rfl) records []
    simpa [processProjectData, totalBeneficiariesOf, inputBeneficiariesOf] using h

/-- Witness for C1: the two-record Kenya example conserves both totals. -/
theorem processProjectData_conserves_totals_witness :
    totalBudgetOf (processProjectData exampleRecords) = inputBudgetOf exampleRecords ∧
    totalBeneficiariesOf (processProjectData exampleRecords) =
      inputBeneficiariesOf exampleRecords :=
  processProjectData_conserves_totals exampleRecords (by simp [exampleRecords])

/-- C2: for every list of project records, the mapping returned by
`processProjectData` has duplicate-free keys, its keys are exactly the
distinct `Country` values occurring in the input (no duplicates, no
orphans, so exactly one entry per distinct country), and the empty
input yields the empty mapping. -/
theorem processProjectData_entry_per_country (records : List ProjectFeature) :
    processProjectData [] = [] ∧
    (countryKeys (processProjectData records)).Nodup ∧
    (∀ c, c ∈ countryKeys (processProjectData records) ↔
      c ∈ records.map (fun f => f.properties.country)) ∧
    (countryKeys (processProjectData records)).length =
      (records.map (fun f => f.properties.country)).dedup.length := by
  have hnodup : (countryKeys (processProjectData records)).Nodup := by
    rw [processProjectData]
    exact nodup_countryKeys_foldl records [] (by simp [countryKeys])
  have hmem : ∀ c, c ∈ countryKeys (processProjectData records) ↔
      c ∈ records.map (fun f => f.properties.country) := by
    intro c
    rw [processProjectData, mem_countryKeys_foldl records [] c]
    simp [countryKeys]
  refine ⟨rfl, hnodup, hmem, ?_⟩
  have hperm : List.Perm (countryKeys (processProjectData records))
      ((records.map (fun f => f.properties.country)).dedup) := by
    rw [List.perm_ext_iff_of_nodup hnodup (List.nodup_dedup _)]
    intro a
    rw [List.mem_dedup]
    exact hmem a
  exact hperm.length_eq

/-- C3: every country aggregate produced by `processProjectData` has
duplicate-free sector and partner lists, and each list is exactly the
first-occurrence deduplication of the corresponding occurrence sequence
of that country's records in input order (duplicates dropped silently). -/
theorem processProjectData_sectors_partners_firstSeen (records : List ProjectFeature)
    (k : String) (d : CountryData) (h : (k, d) ∈ processProjectData records) :
    (d.sectors.Nodup ∧ d.sectors = dedupFirst (sectorsFor records k)) ∧
    (d.partners.Nodup ∧ d.partners = dedupFirst (partnersFor records k)) := by
  have hnodup : (countryKeys (processProjectData records)).Nodup := by
    rw [processProjectData]
    exact nodup_countryKeys_foldl records [] (by simp [countryKeys])
  have hget : getCountry (processProjectData records) k = some d :=
    (mem_iff_getCountry _ _ _ hnodup).mp h
  obtain ⟨hs, hp⟩ := getCountry_processProjectData records k d hget
  exact ⟨⟨hs ▸ nodup_dedupFirst _, hs⟩, ⟨hp ▸ nodup_dedupFirst _, hp⟩⟩

/-- Witness for C3: the Kenya aggregate of the two-record example has
sectors `["Health"]` and partners `["WHO", "UNICEF"]`, duplicate-free
and in first-seen order. -/
theorem processProjectData_sectors_partners_firstSeen_witness :
    (kenyaAggregate.sectors.Nodup ∧
      kenyaAggregate.sectors = dedupFirst (sectorsFor exampleRecords "Kenya")) ∧
    (kenyaAggregate.partners.Nodup ∧
      kenyaAggregate.partners = dedupFirst (partnersFor exampleRecords "Kenya")) :=
  processProjectData_sectors_partners_firstSeen exampleRecords "Kenya" kenyaAggregate
    (by simp [processProjectData, addFeature, seedCountryData, extendCountryData,
          pushIfAbsent, exampleRecords, kenyaRecord1, kenyaRecord2, kenyaAggregate]
        norm_num)

/-! ## Helper lemmas for the string match and the statistics -/

/-- The boolean character-list test agrees with `List.IsPrefix`. -/
theorem startsWithList_iff (pat : List Char) :
    ∀ l : List Char, startsWithList pat l = true ↔ pat <+: l := by
  induction pat with
  | nil => intro l; simp [startsWithList]
  | cons p ps ih =>
      intro l
      cases l with
      | nil => simp [startsWithList]
      | cons c cs =>
          rw [startsWithList, List.cons_prefix_cons]
          simp [ih, Bool.and_eq_true, beq_iff_eq]

/-- The boolean substring test agrees with `List.IsInfix`. -/
theorem containsList_iff (pat : List Char) :
    ∀ l : List Char, containsList pat l = true ↔ pat <:+: l := by
  intro l
  induction l with
  | nil =>
      rw [containsList]
      rw [startsWithList_iff]
      simp
  | cons c cs ih =>
      rw [containsList, Bool.or_eq_true, startsWithList_iff, ih, List.infix_cons_iff]

/-- A left fold of additions starting at `a` is `a` plus the sum. -/
theorem foldl_add_eq_sum (w : ProjectFeature → ℚ) (l : List ProjectFeature) :
    ∀ a : ℚ, l.foldl (fun s p => s + w p) a = a + (l.map w).sum := by
  induction l with
  | nil => intro a; simp
  | cons f rest ih =>
      intro a
      simp only [List.foldl_cons, List.map_cons, List.sum_cons, ih]
      ring

/-- C4: for every boundary click with resolved display name `name`,
`handleCountryClick` selects exactly the records whose `Country`,
compared case-insensitively, contains `name` as a substring, and the
displayed popup carries statistics recomputed by
`calculateProjectStats` over exactly that matched subset of the raw
records: the sums of the matched budgets and beneficiaries and the
deduplicated sector and partner lists of the matched subset. -/
theorem handleCountryClick_matching_and_stats (s : MapState) (feature : BoundaryFeature)
    (records : List ProjectFeature) (name : String) (matched : List ProjectFeature)
    (stats : Stats)
    (hname : name = jsOrString feature.name "Unknown Country")
    (hmatched : matched = countryMatches records name)
    (hstats : stats = calculateProjectStats matched)
    (hne : matched ≠ []) :
    (handleCountryClick s feature records).popups = [Popup.country name matched stats] ∧
    (∀ r, r ∈ matched ↔ r ∈ records ∧
      (jsToLower name).data <:+: (jsToLower r.properties.country).data) ∧
    stats.totalBudget = (matched.map (fun p => p.properties.budget)).sum ∧
    stats.totalBeneficiaries = (matched.map (fun p => p.properties.beneficiaries)).sum ∧
    stats.sectors.Nodup ∧
    (∀ x, x ∈ stats.sectors ↔ x ∈ matched.map (fun p => p.properties.sector)) ∧
    stats.partners.Nodup ∧
    (∀ x, x ∈ stats.partners ↔ x ∈ matched.map (fun p => p.properties.implementingPartner)) := by
  subst hname hmatched hstats
  have hlen : ¬ (countryMatches records (jsOrString feature.name "Unknown Country")).length = 0 := by
    simpa [List.length_eq_zero] using hne
  refine ⟨?_, ?_, ?_, ?_, ?_, ?_, ?_, ?_⟩
  · simp [handleCountryClick, hlen, showPopup]
  · intro r
    simp [countryMatches, List.mem_filter, jsIncludes, containsList_iff]
  · simp [calculateProjectStats, foldl_add_eq_sum]
  · simp [calculateProjectStats, foldl_add_eq_sum]
  · exact nodup_dedupFirst _
  · intro x
    simp [calculateProjectStats, mem_dedupFirst]
  · exact nodup_dedupFirst _
  · intro x
    simp [calculateProjectStats, mem_dedupFirst]

/-- Witness for C4: clicking the Kenya boundary with the two-record
example shows the country popup built from the matched subset and its
freshly computed statistics. -/
theorem handleCountryClick_matching_and_stats_witness :
    (handleCountryClick initialState kenyaBoundary exampleRecords).popups =
      [Popup.country "Kenya" (countryMatches exampleRecords "Kenya")
        (calculateProjectStats (countryMatches exampleRecords "Kenya"))] :=
  (handleCountryClick_matching_and_stats initialState kenyaBoundary exampleRecords
    "Kenya" (countryMatches exampleRecords "Kenya")
    (calculateProjectStats (countryMatches exampleRecords "Kenya"))
    (by decide) rfl rfl (by decide)).1

/-- Counterexample for C5: a no-match boundary click is not a no-op on
the displayed state — the popup that was open before the click has
already been removed by the handler before the match check. -/
theorem noMatch_click_removes_popup_cex :
    statePopupOpen.popups ≠ [] ∧
    (step statePopupOpen (.countryClick atlantisBoundary exampleRecords)).popups = [] := by
  have hm : countryMatches exampleRecords (jsOrString atlantisBoundary.name "Unknown Country")
      = [] := by decide
  constructor
  · simp [statePopupOpen, step, handleProjectClick, initialState]
  · simp [step, handleCountryClick, hm]

/-- C5 (amended): a boundary click whose resolved name matches zero
records shows no popup and raises no error, and leaves the state
unchanged except that any previously displayed popups have been
removed (the handler clears the popup collection before the match
check; the only other effect is a console log). -/
theorem handleCountryClick_noMatch_amended (s : MapState) (feature : BoundaryFeature)
    (records : List ProjectFeature)
    (h : countryMatches records (jsOrString feature.name "Unknown Country") = []) :
    step s (.countryClick feature records) = { s with popups := [] } := by
  simp [step, handleCountryClick, h]

/-- Witness for C5 (amended): the Atlantis click on the open-popup state
results in exactly that state with the popup collection emptied. -/
theorem handleCountryClick_noMatch_amended_witness :
    step statePopupOpen (.countryClick atlantisBoundary exampleRecords) =
      { statePopupOpen with popups := [] } :=
  handleCountryClick_noMatch_amended statePopupOpen atlantisBoundary exampleRecords (by decide)

/-- C6: both click handlers remove all existing popups before creating
at most one new popup — from any state the popup collection has at most
one element after a click — and consequently every reachable state
displays at most one popup. -/
theorem at_most_one_popup :
    (∀ (s : MapState) (feature : BoundaryFeature) (records : List ProjectFeature),
      (handleCountryClick s feature records).popups.length ≤ 1) ∧
    (∀ (s : MapState) (props : ProjectLocationProperties),
      (handleProjectClick s props).popups.length ≤ 1) ∧
    (∀ s : MapState, Reachable s → s.popups.length ≤ 1) := by
  have hcc : ∀ (s : MapState) (feature : BoundaryFeature) (records : List ProjectFeature),
      (handleCountryClick s feature records).popups.length ≤ 1 := by
    intro s feature records
    by_cases h : (countryMatches records (jsOrString feature.name "Unknown Country")).length = 0
    · simp [handleCountryClick, h]
    · simp [handleCountryClick, h, showPopup]
  have hpc : ∀ (s : MapState) (props : ProjectLocationProperties),
      (handleProjectClick s props).popups.length ≤ 1 := by
    intro s props
    simp [handleProjectClick]
  refine ⟨hcc, hpc, ?_⟩
  intro s hs
  induction hs with
  | init => simp [initialState]
  | next h e ih =>
      rename_i s'
      cases e with
      | mousemove id =>
          simpa [step, mousemoveHandler, capturedHoveredStateId] using ih
      | mouseleave =>
          simpa [step, mouseleaveHandler, capturedHoveredStateId] using ih
      | countryClick feature records => exact hcc s' feature records
      | projectClick props => exact hpc s' props
      | focusCountry name =>
          cases hcn : countryCoordinates name <;> simp [step, focusOnCountry, hcn] <;> exact ih
      | reset => simpa [step, resetView] using ih
      | closePopup => simp [step]

/-- Witness for C6: the initial state is reachable and displays at most
one popup. -/
theorem at_most_one_popup_witness : initialState.popups.length ≤ 1 :=
  at_most_one_popup.2.2 initialState Reachable.init

/-- Counterexample for C7: `focusOnCountry` with the unknown name
Atlantis does change the selection state — it records the clicked name
unconditionally before the table lookup. -/
theorem focusOnCountry_unknown_changes_selection_cex :
    (step initialState (.focusCountry "Atlantis")).selectedCountry ≠
      initialState.selectedCountry := by
  have h : countryCoordinates "Atlantis" = none := by decide
  simp [step, focusOnCountry, h, initialState]

/-- C7 (amended): for every country name not present in the static
table, `focusOnCountry` sets the selection to that name but issues no
camera animation and changes nothing else. -/
theorem focusOnCountry_unknown_amended (s : MapState) (name : String)
    (h : countryCoordinates name = none) :
    step s (.focusCountry name) = { s with selectedCountry := some name } := by
  simp [step, focusOnCountry, h]

/-- Witness for C7 (amended): focusing on Atlantis from the initial
state only records the selection; camera and animation count are
untouched. -/
theorem focusOnCountry_unknown_amended_witness :
    step initialState (.focusCountry "Atlantis") =
      { initialState with selectedCountry := some "Atlantis" } :=
  focusOnCountry_unknown_amended initialState "Atlantis" (by decide)

/-- C8 (code bug): the spec and the claim say a pointer-leave clears the
highlighted-feature indicator unconditionally, and the listener's
guarded filter reset shows that this is the intent — but the listener
closes over the first render's `hoveredStateId` (always `null`), so the
`world-hover` filter reset never executes. Evaluating the code at the
failing input: after the pointer enters the polygon with feature id 5
and then leaves, the hover filter still matches polygon 5; only the
recorded id and the cursor are cleared. -/
theorem mouseleave_stale_closure_keeps_filter :
    (step (step initialState (.mousemove 5)) .mouseleave).hoverFilterId = 5 ∧
    (step (step initialState (.mousemove 5)) .mouseleave).hoveredStateId = none ∧
    (step (step initialState (.mousemove 5)) .mouseleave).cursor = "" := by
  refine ⟨?_, ?_, ?_⟩ <;>
    simp [step, mousemoveHandler, mouseleaveHandler, capturedHoveredStateId, initialState]

/-! ## Helper lemmas on the numeric formatting -/

/-- All extracted decimal digits are below ten. -/
theorem natDigitsAux_lt10 : ∀ (fuel n : ℕ), n ≤ fuel → ∀ d ∈ natDigitsAux fuel n, d < 10 := by
  intro fuel
  induction fuel with
  | zero =>
      intro n hn d hd
      simp [natDigitsAux] at hd
      omega
  | succ fuel ih =>
      intro n hn d hd
      rw [natDigitsAux] at hd
      by_cases h10 : n < 10
      · rw [if_pos h10] at hd
        simp at hd
        omega
      · rw [if_neg h10] at hd
        rcases List.mem_cons.mp hd with rfl | hd'
        · omega
        · have hdiv : n / 10 ≤ fuel := by
            have := Nat.div_lt_self (show 0 < n by omega) (show 1 < 10 by norm_num)
            omega
          exact ih (n / 10) hdiv d hd'

/-- The digit extraction is value-faithful. -/
theorem unDigits_natDigitsAux : ∀ (fuel n : ℕ), n ≤ fuel →
    unDigitsLE (natDigitsAux fuel n) = n := by
  intro fuel
  induction fuel with
  | zero =>
      intro n hn
      have hzero : n = 0 := by omega
      subst hzero
      simp [natDigitsAux, unDigitsLE]
  | succ fuel ih =>
      intro n hn
      rw [natDigitsAux]
      by_cases h10 : n < 10
      · rw [if_pos h10]
        simp [unDigitsLE]
      · rw [if_neg h10]
        have hdiv : n / 10 ≤ fuel := by
          have := Nat.div_lt_self (show 0 < n by omega) (show 1 < 10 by norm_num)
          omega
        have hrec := ih (n / 10) hdiv
        rw [unDigitsLE, List.foldr_cons] at *
        rw [hrec]
        omega

/-- All digits of `natDigitsLE n` are below ten. -/
theorem digit_mem_natDigitsLE_lt10 (n : ℕ) : ∀ d ∈ natDigitsLE n, d < 10 :=
  natDigitsAux_lt10 n n le_rfl

/-- `natDigitsLE` is value-faithful. -/
theorem unDigits_natDigitsLE (n : ℕ) : unDigitsLE (natDigitsLE n) = n :=
  unDigits_natDigitsAux n n le_rfl

/-- Chunking loses no element and preserves order. -/
theorem chunk3Aux_flatten : ∀ (fuel : ℕ) (l : List ℕ), l.length ≤ fuel →
    (chunk3Aux fuel l).flatten = l := by
  intro fuel
  induction fuel with
  | zero =>
      intro l hl
      have : l = [] := List.length_eq_zero.mp (by omega)
      subst this
      simp [chunk3Aux]
  | succ fuel ih =>
      intro l hl
      cases l with
      | nil => simp [chunk3Aux]
      | cons x xs =>
          have hd : ((x :: xs).drop 3).length ≤ fuel := by
            simp only [List.length_drop, List.length_cons] at hl ⊢
            omega
          rw [chunk3Aux, List.flatten_cons, ih _ hd]
          exact List.take_append_drop 3 (x :: xs)

/-- `chunk3` loses no element and preserves order. -/
theorem chunk3_flatten (l : List ℕ) : (chunk3 l).flatten = l :=
  chunk3Aux_flatten l.length l le_rfl

/-- Reading back a digit character yields the digit. -/
theorem charDigitVal_digitChar {d : ℕ} (h : d < 10) : charDigitVal (digitChar d) = d := by
  interval_cases d <;> decide

/-- Digit characters are not the separator. -/
theorem digitChar_ne_comma {d : ℕ} (h : d < 10) : digitChar d ≠ ',' := by
  interval_cases d <;> decide

/-- Removing the separators from a separator-joined list of
separator-free blocks recovers the concatenation of the blocks. -/
theorem filter_comma_intercalate : ∀ L : List (List Char),
    (∀ cl ∈ L, ∀ c ∈ cl, c ≠ ',') →
    (List.intercalate [','] L).filter (fun c => c ≠ ',') = L.flatten := by
  intro L
  induction L with
  | nil => intro _; simp [List.intercalate]
  | cons a L ih =>
      intro hall
      cases L with
      | nil =>
          simp only [List.intercalate, List.intersperse_singleton, List.flatten_cons,
            List.flatten_nil, List.append_nil]
          rw [List.filter_eq_self]
          intro c hc
          simpa using hall a (by simp) c hc
      | cons b L' =>
          have hb := ih (fun cl hcl c hc => hall cl (List.mem_cons.mpr (Or.inr hcl)) c hc)
          simp only [List.intercalate] at hb ⊢
          rw [List.intersperse_cons_cons, List.flatten_cons, List.flatten_cons,
            List.filter_append, List.filter_append, hb]
          have ha : a.filter (fun c => c ≠ ',') = a := by
            rw [List.filter_eq_self]
            intro c hc
            simpa using hall a (by simp) c hc
          rw [ha]
          simp

/-- Master lemma: the displayed digits of a grouped numeral evaluate
back to the rendered number. -/
theorem displayedNatValue_groupNat (n : ℕ) : displayedNatValue (groupNat n) = n := by
  have hds := digit_mem_natDigitsLE_lt10 n
  have hchunks_mem : ∀ cl ∈ chunk3 (natDigitsLE n), ∀ x ∈ cl, x < 10 := by
    intro cl hcl x hx
    refine hds x ?_
    rw [← chunk3_flatten (natDigitsLE n)]
    exact List.mem_flatten.mpr ⟨cl, hcl, hx⟩
  have hnocomma : ∀ cl ∈ ((chunk3 (natDigitsLE n)).map
      (fun c => (c.map digitChar).reverse)).reverse, ∀ c ∈ cl, c ≠ ',' := by
    intro cl hcl c hc
    rw [List.mem_reverse, List.mem_map] at hcl
    obtain ⟨c0, hc0, rfl⟩ := hcl
    rw [List.mem_reverse, List.mem_map] at hc
    obtain ⟨d, hd, rfl⟩ := hc
    exact digitChar_ne_comma (hchunks_mem c0 hc0 d hd)
  rw [displayedNatValue, groupNat]
  rw [show (String.mk (List.intercalate [','] (((chunk3 (natDigitsLE n)).map
      (fun c => (c.map digitChar).reverse)).reverse))).data =
      List.intercalate [','] (((chunk3 (natDigitsLE n)).map
      (fun c => (c.map digitChar).reverse)).reverse) from rfl]
  rw [filter_comma_intercalate _ hnocomma]
  have hflat : (((chunk3 (natDigitsLE n)).map
      (fun c => (c.map digitChar).reverse)).reverse).flatten =
      ((natDigitsLE n).map digitChar).reverse := by
    have h1 : (chunk3 (natDigitsLE n)).map (fun c => (c.map digitChar).reverse) =
        ((chunk3 (natDigitsLE n)).map (List.map digitChar)).map List.reverse := by
      rw [List.map_map]
      rfl
    rw [h1, ← List.reverse_flatten, ← List.map_flatten, chunk3_flatten]
  rw [hflat]
  have hforth : ((((natDigitsLE n).map digitChar).reverse).map charDigitVal).reverse =
      (natDigitsLE n).map (fun d => charDigitVal (digitChar d)) := by
    rw [← List.map_reverse, List.reverse_reverse, List.map_map]
    rfl
  rw [hforth]
  rw [show (natDigitsLE n).map (fun d => charDigitVal (digitChar d)) =
      (natDigitsLE n).map id from List.map_congr_left
        (fun d hd => charDigitVal_digitChar (hds d hd))]
  rw [List.map_id, unDigits_natDigitsLE]

/-- Concrete evaluation of the default-locale formatter on the
fractional value `1000.5`: the fraction digit survives. -/
theorem countryBudgetNumeral_fractional_example :
    countryBudgetNumeral ((2001 : ℚ)/2) = "1,000.5" := by
  have hq : ¬ ((2001 : ℚ)/2 < 0) := by norm_num
  have habs : |(2001 : ℚ)/2| = (2001 : ℚ)/2 := abs_of_nonneg (by norm_num)
  have htot : (⌊|(2001 : ℚ)/2| * 1000 + 1/2⌋).toNat = 1000500 := by
    rw [habs]
    have hval : (2001 : ℚ)/2 * 1000 + 1/2 = (2001001 : ℚ)/2 := by norm_num
    rw [hval]
    norm_num
    rfl
  rw [countryBudgetNumeral, ratToLocaleString]
  rw [if_neg hq, htot]
  decide

/-- Counterexample for C9: on the fractional total `1000.5` the country
popup renderer (`createPopupHTML`, via `toLocaleString`) displays
`1,000.5`, while truncation toward zero — which the point popup
renderer applies and which the claim asserts for both renderers —
would display `1,000`. -/
theorem countryPopup_fractional_display_cex :
    countryBudgetNumeral ((2001 : ℚ)/2) = "1,000.5" ∧
    projectBudgetNumeral ((2001 : ℚ)/2) = "1,000" ∧
    countryBudgetNumeral ((2001 : ℚ)/2) ≠ projectBudgetNumeral ((2001 : ℚ)/2) := by
  have hj : jsTrunc ((2001 : ℚ)/2) = 1000 := by
    rw [jsTrunc, if_pos (show (0 : ℚ) ≤ 2001/2 by norm_num)]
    norm_num
  have hproj : projectBudgetNumeral ((2001 : ℚ)/2) = "1,000" := by
    rw [projectBudgetNumeral, hj]
    decide
  refine ⟨countryBudgetNumeral_fractional_example, hproj, ?_⟩
  rw [countryBudgetNumeral_fractional_example, hproj]
  decide

/-- C9 (amended): the point popup renderer (`createProjectPopupHTML`)
displays totals truncated toward zero to whole numbers with thousands
separators — for every non-negative total the digits displayed are
exactly the integer part of the value; the country popup renderer
(`createPopupHTML`) instead uses the default locale formatter, which
retains up to three fraction digits, so a fractional input such as
`1000.5` is displayed with its fraction and is not truncated. -/
theorem popup_numerals_amended :
    (∀ q : ℚ, 0 ≤ q →
      displayedNatValue (projectBudgetNumeral q) = (jsTrunc q).toNat ∧
      (jsTrunc q : ℚ) ≤ q ∧ q < (jsTrunc q : ℚ) + 1) ∧
    countryBudgetNumeral ((2001 : ℚ)/2) = "1,000.5" := by
  constructor
  · intro q hq
    have hj : jsTrunc q = ⌊q⌋ := by rw [jsTrunc, if_pos hq]
    have hfl : ¬ (⌊q⌋ < 0) := not_lt.mpr (Int.floor_nonneg.mpr hq)
    refine ⟨?_, ?_, ?_⟩
    · rw [projectBudgetNumeral, hj, intToLocaleString, if_neg hfl]
      rw [show ("" : String) ++ groupNat (⌊q⌋.natAbs) = groupNat (⌊q⌋.natAbs) from rfl]
      rw [displayedNatValue_groupNat]
      omega
    · rw [hj]
      exact Int.floor_le q
    · rw [hj]
      exact Int.lt_floor_add_one q
  · exact countryBudgetNumeral_fractional_example

/-- Witness for C9 (amended): the point popup displays `3` for the
fractional total `3.5`. -/
theorem popup_numerals_amended_witness :
    displayedNatValue (projectBudgetNumeral ((7 : ℚ)/2)) = 3 := by
  have h := popup_numerals_amended.1 ((7 : ℚ)/2) (by norm_num)
  have hj : jsTrunc ((7 : ℚ)/2) = 3 := by
    rw [jsTrunc, if_pos (show (0 : ℚ) ≤ 7/2 by norm_num)]
    norm_num
  rw [h.1, hj]
  rfl

/-- C10: for every value of the Mapbox access token environment
variable, `validateEnvironment` reports valid exactly when the token is
non-empty and starts with the public prefix, and every invalid outcome
carries a non-empty error list. -/
theorem validateEnvironment_iff (v : Option String) :
    ((validateEnvironment v).isValid = true ↔
      (envToken v ≠ "" ∧ jsStartsWith (envToken v) "pk." = true)) ∧
    ((validateEnvironment v).isValid = false → (validateEnvironment v).errors ≠ []) := by
  by_cases hempty : envToken v = ""
  · simp [validateEnvironment, hempty]
  · by_cases hpk : jsStartsWith (envToken v) "pk." = true
    · simp [validateEnvironment, hempty, hpk]
    · simp [validateEnvironment, hempty, hpk]

/-- Witness for C10: a secret-style token is reported invalid with a
non-empty error list. -/
theorem validateEnvironment_iff_witness :
    (validateEnvironment (some "sk.123")).isValid = false ∧
    (validateEnvironment (some "sk.123")).errors ≠ [] :=
  ⟨by decide, (validateEnvironment_iff (some "sk.123")).2 (by decide)⟩

end Dashboard
